import Mathlib

/-!
Verification development for the Otom workflow-mapping engine
(`src/core/workflow/workflow_mapper.py`).

The Python code is shallowly embedded: the dependency graph kept by
`WorkflowMapper` (a `networkx.DiGraph`) is modelled as an insertion-ordered
association list of node ids to optional attribute records together with an
ordered list of directed edges; floats are modelled as rationals; Python
dictionaries whose keys may be absent are modelled with `Option` fields.
-/

namespace Otom

/-- Insertion-ordered association-list lookup, mirroring Python dict lookup
(`d[k]` / `d.get(k)`). -/
def lookupL {β : Type} : List (String × β) → String → Option β
  | [], _ => none
  | p :: ps, k => if p.1 = k then some p.2 else lookupL ps k

theorem lookupL_append {β : Type} (l₁ l₂ : List (String × β)) (k : String) :
    lookupL (l₁ ++ l₂) k =
      match lookupL l₁ k with
      | some v => some v
      | none => lookupL l₂ k := by
  induction l₁ with
  | nil => simp [lookupL]
  | cons p ps ih =>
    by_cases h : p.1 = k <;> simp [lookupL, h, ih]

theorem lookupL_mapReplace {β : Type} (l : List (String × β)) (n : String) (v : β)
    (k : String) :
    lookupL (l.map fun p => if p.1 = n then (p.1, v) else p) k =
      if k = n then (lookupL l k).map (fun _ => v) else lookupL l k := by
  induction l with
  | nil => simp [lookupL]
  | cons p ps ih =>
    by_cases h1 : p.1 = n
    · by_cases h2 : p.1 = k
      · subst h2; simp [lookupL, h1, ih]
      · have h3 : ¬(n = k) := fun hh => h2 (h1.trans hh)
        have h4 : ¬(k = n) := fun hh => h3 hh.symm
        simp [lookupL, h1, h2, ih, h3, h4]
    · by_cases h2 : p.1 = k
      · subst h2; simp [lookupL, h1, ih, Ne.symm h1]
      · simp [lookupL, h1, h2, ih]

theorem mem_mapFst_iff_lookupL {β : Type} (l : List (String × β)) (k : String) :
    k ∈ l.map Prod.fst ↔ (lookupL l k).isSome := by
  induction l with
  | nil => simp [lookupL]
  | cons p ps ih =>
    by_cases h : p.1 = k
    · simp [lookupL, h]
    · simp only [List.map_cons, List.mem_cons, lookupL, if_neg h, ih]
      constructor
      · rintro (rfl | hm)
        · exact absurd rfl h
        · exact hm
      · intro hm; exact Or.inr hm

/-- Python `str.lower()`: lower-case each character (character-list
implementation of `String.toLower`, kept kernel-computable). -/
def pyLower (s : String) : String := ⟨s.data.map Char.toLower⟩

/-- Python `.replace(" ", "_")` for the single-character pattern used by the
source. -/
def pyReplaceSpace (s : String) : String :=
  ⟨s.data.map (fun c => if c = ' ' then '_' else c)⟩

/-- Accumulator pass for `pyWords`: split on space runs, dropping empty
tokens. -/
def wordsAux : List Char → List Char → List String
  | [], acc => if acc = [] then [] else [⟨acc.reverse⟩]
  | c :: cs, acc =>
    if c = ' ' then
      (if acc = [] then wordsAux cs [] else ⟨acc.reverse⟩ :: wordsAux cs [])
    else wordsAux cs (c :: acc)

/-- Python `str.split()` on the space-separated names this code handles:
split on runs of spaces, dropping empty tokens. -/
def pyWords (s : String) : List String := wordsAux s.data []

/-- Whether the character list `pat` occurs as a prefix of `s`. -/
def strStarts : List Char → List Char → Bool
  | [], _ => true
  | _ :: _, [] => false
  | a :: as, b :: bs => a = b && strStarts as bs

/-- Whether the character list `pat` occurs contiguously inside `s`
(Python's `pat in s`). -/
def strHas (pat : List Char) : List Char → Bool
  | [] => pat.isEmpty
  | c :: rest => strStarts pat (c :: rest) || strHas pat rest

/-- Python `int()` applied to a float: truncation toward zero. -/
def pyInt (q : ℚ) : ℤ := if 0 ≤ q then ⌊q⌋ else ⌈q⌉

/-- Python f-string rendering of a value that is either a string or `None`. -/
def pyShowOptStr : Option String → String
  | none => "None"
  | some s => s

/-- The ordered pairs `(l[i], l[j])` with `i < j`, as produced by the nested
`for i, x in enumerate(nodes): for y in nodes[i+1:]` loops. -/
def pairsAfter {α : Type} : List α → List (α × α)
  | [] => []
  | x :: xs => (xs.map fun y => (x, y)) ++ pairsAfter xs

theorem filterMap_ite {α β : Type} (P : α → Prop) [DecidablePred P] (f : α → β)
    (l : List α) :
    (l.filterMap fun a => if P a then some (f a) else none) =
      (l.filter fun a => decide (P a)).map f := by
  induction l with
  | nil => rfl
  | cons x xs ih =>
    by_cases h : P x <;> simp [List.filterMap_cons, List.filter_cons, h, ih]

theorem getLast?_cons_eq {α : Type} (a : α) (l : List α) :
    (a :: l).getLast? =
      match l.getLast? with
      | some b => some b
      | none => some a := by
  cases l with
  | nil => rfl
  | cons b bs =>
    rw [List.getLast?_cons_cons]
    have hs : ((b :: bs).getLast?).isSome := by
      rw [List.getLast?_isSome]; simp
    cases h : (b :: bs).getLast? with
    | none => rw [h] at hs; simp at hs
    | some c => rfl

/-- Attribute record stored on a graph node by `_add_to_workflow_graph`
(`name`, `department`, `duration`, `frequency`). The `department` key may hold
Python `None` (`workflow.get("department")`), hence `Option String`. The
`automation_potential` key is never written by `_add_to_workflow_graph`, so
ingestion always sets it to `none`; other readers of the graph consult it with
a default, which we keep as an `Option` field. -/
structure Attrs where
  name : String
  department : Option String
  duration : ℚ
  frequency : String
  automation_potential : Option ℚ
  deriving DecidableEq, Repr

/-- One workflow record as consumed by `_add_to_workflow_graph` (a Python
dict); `Option` fields model possibly-absent keys. The `name` key is accessed
with `workflow["name"]` (required); the others via `.get`. -/
structure Workflow where
  id : Option String
  name : String
  department : Option String
  duration_hours : Option ℚ
  frequency : Option String
  dependencies : List String
  deriving DecidableEq, Repr

/-- Models `workflow.get("id") or workflow["name"]`: Python `or` falls through on a
falsy id (absent key or empty string). -/
def nodeId (w : Workflow) : String :=
  match w.id with
  | some s => if s = "" then w.name else s
  | none => w.name

/-- The four node attributes written by `_add_to_workflow_graph`, with the
defaults used there (`duration_hours` defaults to 1, `frequency` to "daily"). -/
def attrsOf (w : Workflow) : Attrs :=
  { name := w.name
    department := w.department
    duration := w.duration_hours.getD 1
    frequency := w.frequency.getD "daily"
    automation_potential := none }

/-- The mapper's `dependencies_graph` (`networkx.DiGraph`): insertion-ordered
nodes with optional attribute records (`none` = a node created by `add_edge`
with an empty attribute dict) and an insertion-ordered duplicate-free edge
list. -/
structure Graph where
  nodes : List (String × Option Attrs)
  edges : List (String × String)
  deriving DecidableEq, Repr

def emptyGraph : Graph := { nodes := [], edges := [] }

def nodeIds (g : Graph) : List String := g.nodes.map Prod.fst

def lookupNode (g : Graph) (k : String) : Option (Option Attrs) :=
  lookupL g.nodes k

/-- Models `DiGraph.add_node(id, **attrs)`: update the attributes of an existing node
in place, else append a fresh node. -/
def addNodeG (g : Graph) (k : String) (a : Attrs) : Graph :=
  if (lookupNode g k).isSome then
    { g with nodes := g.nodes.map fun p => if p.1 = k then (p.1, some a) else p }
  else
    { g with nodes := g.nodes ++ [(k, some a)] }

/-- The node-creation side of `DiGraph.add_edge`: a missing endpoint is added
with an empty attribute dict. -/
def ensureNodeG (g : Graph) (k : String) : Graph :=
  if (lookupNode g k).isSome then g else { g with nodes := g.nodes ++ [(k, none)] }

/-- The edge-list side of `DiGraph.add_edge`: append the edge unless already
present. -/
def addEdgeOnly (g : Graph) (d n : String) : Graph :=
  if (d, n) ∈ g.edges then g else { g with edges := g.edges ++ [(d, n)] }

/-- Models `DiGraph.add_edge(d, n)`: create missing endpoints, then add the edge
unless it is already present. -/
def addEdgeG (g : Graph) (d n : String) : Graph :=
  addEdgeOnly (ensureNodeG (ensureNodeG g d) n) d n

/-- Models `_add_to_workflow_graph`: add the node with its attributes, then one edge
`dep → node_id` per listed dependency. -/
def ingestW (g : Graph) (w : Workflow) : Graph :=
  w.dependencies.foldl (fun g2 d => addEdgeG g2 d (nodeId w))
    (addNodeG g (nodeId w) (attrsOf w))

/-- The graph-building loop of `map_company_workflows`: fold
`_add_to_workflow_graph` over a batch of workflow records. -/
def ingest (g : Graph) (b : List Workflow) : Graph := b.foldl ingestW g

/-- Models `node_data.get("name", "")`. -/
def readName (o : Option Attrs) : String :=
  match o with
  | some a => a.name
  | none => ""

/-- Models `node_data.get("department")` (default `None`). -/
def readDept (o : Option Attrs) : Option String :=
  match o with
  | some a => a.department
  | none => none

/-- Models `node_data.get("duration", 0)`. -/
def getDur0 (o : Option Attrs) : ℚ :=
  match o with
  | some a => a.duration
  | none => 0

/-- Models `node_data.get("duration", 1)`. -/
def getDur1 (o : Option Attrs) : ℚ :=
  match o with
  | some a => a.duration
  | none => 1

/-- Models `node_data.get("automation_potential", 0)`. -/
def readAP (o : Option Attrs) : ℚ :=
  match o with
  | some a => a.automation_potential.getD 0
  | none => 0

/-- Models `self.dependencies_graph.nodes[x].get("department")` as read by the
handoff pass (edge endpoints are always present in the graph). -/
def getDeptG (g : Graph) (x : String) : Option String :=
  match lookupNode g x with
  | some o => readDept o
  | none => none

/-- Models `self.dependencies_graph.in_degree(x)` on a simple digraph. -/
def inDegree (g : Graph) (x : String) : ℕ :=
  (g.edges.filter fun e => e.2 = x).length

/-- The `WorkflowBottleneck` dataclass. `btype` stands for the Python field
`type`. -/
structure Bottleneck where
  node_id : String
  btype : String
  severity : ℚ
  impact : String
  recommendation : String
  estimated_savings_hours : ℚ
  deriving DecidableEq, Repr

/-- Pass 1 of `identify_bottlenecks`: capacity bottlenecks. The betweenness
centrality mapping computed by `networkx` is passed in as `c`; its key set is
exactly the node set of the graph, so the `for node, score in
centrality.items()` loop is a loop over the graph's nodes. -/
def capacityPass (c : String → ℚ) (g : Graph) : List Bottleneck :=
  g.nodes.filterMap fun p =>
    if c p.1 > 3/10 then
      some { node_id := p.1
             btype := "capacity"
             severity := min (c p.1 * 2) 1
             impact := "This step is a critical path for " ++
               toString (pyInt (c p.1 * 100)) ++ "% of workflows"
             recommendation := "Consider parallelizing or adding resources"
             estimated_savings_hours := c p.1 * 40 }
    else none

/-- Pass 2: dependency bottlenecks (in-degree above 5). -/
def dependencyPass (g : Graph) : List Bottleneck :=
  g.nodes.filterMap fun p =>
    if inDegree g p.1 > 5 then
      some { node_id := p.1
             btype := "dependency"
             severity := min ((inDegree g p.1 : ℚ) / 10) 1
             impact := "Blocked by " ++ toString (inDegree g p.1) ++ " other tasks"
             recommendation := "Reduce dependencies or batch processing"
             estimated_savings_hours := (inDegree g p.1 : ℚ) * 2 }
    else none

/-- Pass 3: approval bottlenecks (node name contains "approval",
case-insensitively). -/
def approvalPass (g : Graph) : List Bottleneck :=
  g.nodes.filterMap fun p =>
    if strHas "approval".toList (pyLower (readName p.2)).toList then
      some { node_id := p.1
             btype := "approval"
             severity := 7/10
             impact := "Manual approval causing delays"
             recommendation := "Implement automated approval rules for standard cases"
             estimated_savings_hours := 10 }
    else none

/-- Pass 4: handoff bottlenecks (edges whose endpoint departments differ). -/
def handoffPass (g : Graph) : List Bottleneck :=
  g.edges.filterMap fun e =>
    if getDeptG g e.1 ≠ getDeptG g e.2 then
      some { node_id := e.1 ++ "_to_" ++ e.2
             btype := "handoff"
             severity := 6/10
             impact := "Cross-department handoff between " ++
               pyShowOptStr (getDeptG g e.1) ++ " and " ++ pyShowOptStr (getDeptG g e.2)
             recommendation := "Standardize handoff process or co-locate teams"
             estimated_savings_hours := 5 }
    else none

/-- Models `identify_bottlenecks`: the four passes concatenated in program order. -/
def identifyBottlenecks (c : String → ℚ) (g : Graph) : List Bottleneck :=
  capacityPass c g ++ dependencyPass g ++ approvalPass g ++ handoffPass g

/-- Name-token overlap component of `_calculate_similarity`: distinct common
words of the lowercased names over the longer token count (the common words
form a Python `set`, modelled as a `Finset`; the `if common_words:` guard
means no division happens when there is no overlap). -/
def nameScore (n1raw n2raw : String) : ℚ :=
  if pyLower n1raw ≠ "" ∧ pyLower n2raw ≠ "" then
    if ((pyWords (pyLower n1raw)).toFinset ∩ (pyWords (pyLower n2raw)).toFinset).card > 0 then
      (((pyWords (pyLower n1raw)).toFinset ∩ (pyWords (pyLower n2raw)).toFinset).card : ℚ) /
        ((max (pyWords (pyLower n1raw)).length (pyWords (pyLower n2raw)).length : ℕ) : ℚ)
    else 0
  else 0

/-- Same-department component of `_calculate_similarity`. -/
def deptScore (o1 o2 : Option String) : ℚ := if o1 = o2 then 1/5 else 0

/-- Duration-similarity component of `_calculate_similarity` (only when both
durations are nonzero, per Python float truthiness). -/
def durScore (q1 q2 : ℚ) : ℚ :=
  if q1 ≠ 0 ∧ q2 ≠ 0 then (1 - |q1 - q2| / max q1 q2) * (3/10) else 0

/-- Models `_calculate_similarity` over two node-attribute dicts. -/
def similarity (d1 d2 : Option Attrs) : ℚ :=
  min (nameScore (readName d1) (readName d2) +
       deptScore (readDept d1) (readDept d2) +
       durScore (getDur0 d1) (getDur0 d2)) 1

/-- One entry of the `detect_redundancies` output list. Duplicate and circular
entries carry different dict keys, modelled with `Option` fields. -/
structure Redundancy where
  rtype : String
  rnodes : List String
  similarity_score : Option ℚ
  departments : Option (List (Option String))
  impact : Option String
  estimated_waste_hours : ℚ
  recommendation : String
  deriving DecidableEq, Repr

/-- The pairwise duplicate-process scan of `detect_redundancies`. -/
def duplicateEntries (g : Graph) : List Redundancy :=
  (pairsAfter g.nodes).filterMap fun pq =>
    if similarity pq.1.2 pq.2.2 > 8/10 then
      some { rtype := "duplicate_process"
             rnodes := [pq.1.1, pq.2.1]
             similarity_score := some (similarity pq.1.2 pq.2.2)
             departments := some [readDept pq.1.2, readDept pq.2.2]
             impact := none
             estimated_waste_hours := getDur1 pq.1.2 * 4
             recommendation := "Consolidate these similar processes" }
    else none

/-- The circular-dependency entries built from the cycle list returned by
`nx.simple_cycles`. -/
def cycleEntries (cyc : List (List String)) : List Redundancy :=
  cyc.map fun l =>
    { rtype := "circular_dependency"
      rnodes := l
      similarity_score := none
      departments := none
      impact := some "Tasks waiting on each other causing delays"
      estimated_waste_hours := (l.length : ℚ) * 3
      recommendation := "Break circular dependency by reordering tasks" }

/-- Models `detect_redundancies`: duplicate scan followed by cycle entries. The
enumeration produced by the external call `nx.simple_cycles` is passed in as
`cyc`. -/
def detectRedundancies (cyc : List (List String)) (g : Graph) : List Redundancy :=
  duplicateEntries g ++ cycleEntries cyc

/-- Soundness of a cycle enumeration for a graph: every cycle is a nonempty
list of graph nodes (all that is needed from `nx.simple_cycles` here). -/
def cyclesValid (g : Graph) (cyc : List (List String)) : Prop :=
  ∀ l ∈ cyc, l ≠ [] ∧ ∀ x ∈ l, x ∈ nodeIds g

/-- One quick-win entry of `_identify_quick_wins`. The savings value is kept
as a rational; the source renders it as a formatted string for display. -/
structure QuickWin where
  action : String
  effort : String
  impact : String
  timeline : String
  savings_hours_per_week : ℚ
  deriving DecidableEq, Repr

/-- Models `node[1].get('name', node[0])`. -/
def nameOrId (p : String × Option Attrs) : String :=
  match p.2 with
  | some a => a.name
  | none => p.1

/-- Models `_identify_quick_wins`: nodes with stored automation potential above 0.8
and in-degree below 2, first five kept. -/
def quickWins (g : Graph) : List QuickWin :=
  (g.nodes.filterMap fun p =>
    if readAP p.2 > 4/5 ∧ inDegree g p.1 < 2 then
      some { action := "Automate " ++ nameOrId p
             effort := "Low"
             impact := "High"
             timeline := "1-2 weeks"
             savings_hours_per_week := getDur1 p.2 * 5 }
    else none).take 5

/-- The quick-wins list as the specification words it: the nodes whose
automation potential exceeds 0.8 and whose in-degree is below 2, capped at 5,
with savings `duration × 5`. -/
def quickWinsSpec (g : Graph) : List QuickWin :=
  ((g.nodes.filter fun p =>
      decide (readAP p.2 > 4/5 ∧ inDegree g p.1 < 2)).take 5).map fun p =>
    { action := "Automate " ++ nameOrId p
      effort := "Low"
      impact := "High"
      timeline := "1-2 weeks"
      savings_hours_per_week := getDur1 p.2 * 5 }

/-- The `WorkflowMapper` instance state relevant to analysis: the dependency
graph plus the `self.bottlenecks` / `self.redundancies` fields that
`identify_bottlenecks` and `detect_redundancies` assign and
`generate_insights` reads. -/
structure Mapper where
  graph : Graph
  bottlenecks : List Bottleneck
  redundancies : List Redundancy
  deriving DecidableEq, Repr

/-- The state built by `WorkflowMapper.__init__`. -/
def initMapper : Mapper := { graph := emptyGraph, bottlenecks := [], redundancies := [] }

/-- Models `identify_bottlenecks` as a state transformer: returns the bottleneck list
and assigns it to `self.bottlenecks`. -/
def runIdentifyBottlenecks (c : String → ℚ) (m : Mapper) :
    List Bottleneck × Mapper :=
  let bs := identifyBottlenecks c m.graph
  (bs, { m with bottlenecks := bs })

/-- Models `detect_redundancies` as a state transformer: returns the redundancy list
and assigns it to `self.redundancies`. -/
def runDetectRedundancies (cyc : List (List String)) (m : Mapper) :
    List Redundancy × Mapper :=
  let rs := detectRedundancies cyc m.graph
  (rs, { m with redundancies := rs })

/-- Models `n[1].get("department", "unknown")`, the key expression of the department
set built in `_generate_department_insights`: a stub node (empty attribute
dict) yields the default "unknown", while a node whose department attribute is
Python `None` yields `None`. -/
def deptKey (o : Option Attrs) : Option String :=
  match o with
  | some a => a.department
  | none => some "unknown"

/-- One department rollup of `_generate_department_insights`. -/
structure DeptInsight where
  total_processes : ℕ
  bottleneck_count : ℕ
  automation_candidates : ℕ
  weekly_hours : ℚ
  deriving DecidableEq, Repr

/-- Models `_generate_department_insights`: rollups keyed by the department values
found on nodes (Python `set` iteration, modelled in first-occurrence order). -/
def deptInsights (m : Mapper) : List (Option String × DeptInsight) :=
  ((m.graph.nodes.map fun p => deptKey p.2).dedup).map fun dept =>
    let dn := m.graph.nodes.filter fun p => decide (readDept p.2 = dept)
    (dept,
      { total_processes := dn.length
        bottleneck_count :=
          (m.bottlenecks.filter fun b => dn.any fun p => p.1 == b.node_id).length
        automation_candidates := (dn.filter fun p => decide (readAP p.2 > 7/10)).length
        weekly_hours := (dn.map fun p => getDur0 p.2 * 5).sum })

/-- The numeric and structural content of the `generate_insights` report
(executive summary, the four recommendation impact fractions, department
rollups, quick wins); display-only string formatting is not modelled. -/
structure Insights where
  bottlenecks_found : ℕ
  redundancies_found : ℕ
  potential_time_savings : ℚ
  potential_cost_savings : ℚ
  automation_opportunities : ℕ
  rec_impacts : List ℚ
  department_specific : List (Option String × DeptInsight)
  quick_wins : List QuickWin
  deriving DecidableEq, Repr

/-- Models `generate_insights`: reads `self.bottlenecks`, `self.redundancies` and the
graph; mutates nothing. -/
def generateInsights (m : Mapper) : Insights :=
  let total := (m.bottlenecks.map fun b => b.estimated_savings_hours).sum
  { bottlenecks_found := m.bottlenecks.length
    redundancies_found := m.redundancies.length
    potential_time_savings := total
    potential_cost_savings := total * 50 * 52
    automation_opportunities :=
      (m.graph.nodes.filter fun p => decide (readAP p.2 > 7/10)).length
    rec_impacts := [total * (4/10), total * (3/10), total * (2/10), total * (1/10)]
    department_specific := deptInsights m
    quick_wins := quickWins m.graph }

/-- One activity entry of the `daily_activities` list handed to
`_create_workflow_node`; `Option` fields model possibly-absent keys, and the
boolean flags model `.get(flag, False)`. -/
structure Activity where
  name : Option String
  department : Option String
  owner : Option String
  duration : Option ℚ
  dependencies : Option (List String)
  tools : Option (List String)
  frequency : Option String
  pain_points : Option (List String)
  repetitive : Bool
  digital : Bool
  rule_based : Bool
  requires_judgment : Bool
  creative : Bool
  deriving DecidableEq, Repr

/-- Models `_calculate_automation_potential`: additive flag scoring clamped to
[0, 1]. -/
def automationPotential (a : Activity) : ℚ :=
  max 0 (min 1
    ((if a.repetitive then 3/10 else 0) +
     (if a.digital then 3/10 else 0) +
     (if a.rule_based then 1/5 else 0) -
     (if a.requires_judgment then 3/10 else 0) -
     (if a.creative then 1/5 else 0)))

/-- The `WorkflowNode` dataclass. -/
structure WorkflowNode where
  id : String
  name : String
  department : String
  owner : String
  duration_hours : ℚ
  dependencies : List String
  tools_used : List String
  frequency : String
  pain_points : List String
  automation_potential : ℚ
  deriving DecidableEq, Repr

/-- Models `_create_workflow_node`: the `activity['name']` subscript raises
`KeyError` when the key is absent (modelled as `none`); every other field is
read with `.get` and a default. -/
def createWorkflowNode (a : Activity) : Option WorkflowNode :=
  match a.name with
  | none => none
  | some nm =>
      some { id := "node_" ++ pyLower (pyReplaceSpace nm)
             name := nm
             department := a.department.getD "unknown"
             owner := a.owner.getD "unassigned"
             duration_hours := a.duration.getD 1
             dependencies := a.dependencies.getD []
             tools_used := a.tools.getD []
             frequency := a.frequency.getD "daily"
             pain_points := a.pain_points.getD []
             automation_potential := automationPotential a }

/-- The `daily_activities` loop of `collect_employee_data`: each activity is
turned into a node; a failure (KeyError) propagates (the surrounding
try/except logs and re-raises). -/
def collectWorkflows (acts : List Activity) : Option (List WorkflowNode) :=
  acts.mapM createWorkflowNode

theorem edges_addNodeG (g : Graph) (k : String) (a : Attrs) :
    (addNodeG g k a).edges = g.edges := by
  unfold addNodeG; split <;> rfl

theorem edges_ensureNodeG (g : Graph) (k : String) :
    (ensureNodeG g k).edges = g.edges := by
  unfold ensureNodeG; split <;> rfl

theorem nodes_addEdgeOnly (g : Graph) (d n : String) :
    (addEdgeOnly g d n).nodes = g.nodes := by
  unfold addEdgeOnly; split <;> rfl

theorem edges_addEdgeOnly (g : Graph) (d n : String) :
    (addEdgeOnly g d n).edges =
      if (d, n) ∈ g.edges then g.edges else g.edges ++ [(d, n)] := by
  unfold addEdgeOnly; split <;> simp_all

theorem edges_addEdgeG (g : Graph) (d n : String) :
    (addEdgeG g d n).edges =
      if (d, n) ∈ g.edges then g.edges else g.edges ++ [(d, n)] := by
  unfold addEdgeG
  rw [edges_addEdgeOnly, edges_ensureNodeG, edges_ensureNodeG]

theorem nodes_addEdgeG (g : Graph) (d n : String) :
    (addEdgeG g d n).nodes = (ensureNodeG (ensureNodeG g d) n).nodes := by
  unfold addEdgeG; rw [nodes_addEdgeOnly]

theorem lookupNode_addNodeG (g : Graph) (k : String) (a : Attrs) (j : String) :
    lookupNode (addNodeG g k a) j =
      if j = k then some (some a) else lookupNode g j := by
  cases hsk : lookupNode g k with
  | some v =>
    have hk : (lookupNode g k).isSome := by rw [hsk]; rfl
    unfold addNodeG
    rw [if_pos hk]
    show lookupL (g.nodes.map _) j = _
    rw [lookupL_mapReplace]
    by_cases hj : j = k
    · subst hj
      unfold lookupNode at hsk
      simp [hsk]
    · simp [hj, lookupNode]
  | none =>
    have hk : ¬(lookupNode g k).isSome := by rw [hsk]; simp
    unfold addNodeG
    rw [if_neg hk]
    show lookupL (g.nodes ++ [(k, some a)]) j = _
    rw [lookupL_append]
    unfold lookupNode at hsk ⊢
    by_cases hj : j = k
    · subst hj; simp [hsk, lookupL]
    · cases h : lookupL g.nodes j with
      | none => simp [lookupL, hj, Ne.symm hj, h]
      | some v => simp [h, hj]

theorem lookupNode_ensureNodeG (g : Graph) (k : String) (j : String) :
    lookupNode (ensureNodeG g k) j =
      match lookupNode g j with
      | some v => some v
      | none => if j = k then some none else none := by
  cases hsk : lookupNode g k with
  | some v =>
    have hk : (lookupNode g k).isSome := by rw [hsk]; rfl
    unfold ensureNodeG
    rw [if_pos hk]
    cases h : lookupNode g j with
    | none =>
      by_cases hj : j = k
      · subst hj; rw [h] at hsk; exact absurd hsk (by simp)
      · simp [h, hj]
    | some v2 => simp [h]
  | none =>
    have hk : ¬(lookupNode g k).isSome := by rw [hsk]; simp
    unfold ensureNodeG
    rw [if_neg hk]
    show lookupL (g.nodes ++ [(k, none)]) j = _
    rw [lookupL_append]
    unfold lookupNode at hsk ⊢
    by_cases hj : j = k
    · subst hj; simp [hsk, lookupL]
    · cases h : lookupL g.nodes j with
      | none => simp [lookupL, hj, Ne.symm hj, h]
      | some v => simp [h]

theorem lookupNode_addEdgeG (g : Graph) (d n : String) (j : String) :
    lookupNode (addEdgeG g d n) j =
      match lookupNode g j with
      | some v => some v
      | none => if j = d ∨ j = n then some none else none := by
  have hn : lookupNode (addEdgeG g d n) j =
      lookupNode (ensureNodeG (ensureNodeG g d) n) j := by
    unfold lookupNode
    rw [nodes_addEdgeG]
  rw [hn, lookupNode_ensureNodeG, lookupNode_ensureNodeG]
  cases h : lookupNode g j with
  | some v => simp
  | none =>
    by_cases hd : j = d
    · simp [hd]
    · by_cases hj2 : j = n
      · subst hj2; simp [hd]
      · simp [hd, hj2]

theorem lookupNode_foldAddEdge (ds : List String) (n : String) (g : Graph)
    (hn : (lookupNode g n).isSome) (j : String) :
    lookupNode (ds.foldl (fun g2 d => addEdgeG g2 d n) g) j =
      match lookupNode g j with
      | some v => some v
      | none => if j ∈ ds then some none else none := by
  induction ds generalizing g with
  | nil =>
    simp only [List.foldl_nil, List.not_mem_nil, if_false]
    cases h : lookupNode g j <;> simp
  | cons d ds ih =>
    rw [List.foldl_cons]
    have hn' : (lookupNode (addEdgeG g d n) n).isSome := by
      rw [lookupNode_addEdgeG]
      cases h : lookupNode g n with
      | some v => simp
      | none => rw [h] at hn; simp at hn
    rw [ih (addEdgeG g d n) hn', lookupNode_addEdgeG]
    cases h : lookupNode g j with
    | some v => simp
    | none =>
      by_cases hd : j = d
      · simp [hd]
      · by_cases hj2 : j = n
        · subst hj2; rw [h] at hn; simp at hn
        · simp [hd, hj2]

theorem lookupNode_ingestW (g : Graph) (w : Workflow) (j : String) :
    lookupNode (ingestW g w) j =
      if j = nodeId w then some (some (attrsOf w))
      else
        match lookupNode g j with
        | some v => some v
        | none => if j ∈ w.dependencies then some none else none := by
  unfold ingestW
  have hn : (lookupNode (addNodeG g (nodeId w) (attrsOf w)) (nodeId w)).isSome := by
    rw [lookupNode_addNodeG]; simp
  rw [lookupNode_foldAddEdge _ _ _ hn, lookupNode_addNodeG]
  by_cases hj : j = nodeId w
  · simp [hj]
  · simp only [hj, if_false]

/-- The batch members whose node id is `j`, in order; the last one is the
final writer of `j`'s attributes. -/
def writersFor (b : List Workflow) (j : String) : List Workflow :=
  b.filter fun w => decide (nodeId w = j)

/-- Full characterization of a node's stored value after ingesting a batch:
the last batch member with that node id wins; otherwise the pre-existing value
survives; otherwise a node mentioned only as a dependency is present with an
empty attribute dict; otherwise the node is absent. -/
theorem lookupNode_ingest (g : Graph) (b : List Workflow) (j : String) :
    lookupNode (ingest g b) j =
      match (writersFor b j).getLast? with
      | some w => some (some (attrsOf w))
      | none =>
        match lookupNode g j with
        | some v => some v
        | none =>
          if b.any (fun w => decide (j ∈ w.dependencies)) then some none else none := by
  induction b generalizing g with
  | nil =>
    simp only [ingest, List.foldl_nil, writersFor, List.filter_nil, List.getLast?_nil,
      List.any_nil, if_false]
    cases h : lookupNode g j <;> simp
  | cons w bs ih =>
    have hstep : ingest g (w :: bs) = ingest (ingestW g w) bs := rfl
    rw [hstep, ih]
    have hfil : writersFor (w :: bs) j =
        if nodeId w = j then w :: writersFor bs j else writersFor bs j := by
      simp [writersFor, List.filter_cons]
    cases hgl : (writersFor bs j).getLast? with
    | some w' =>
      have : (writersFor (w :: bs) j).getLast? = some w' := by
        rw [hfil]
        by_cases hw : nodeId w = j
        · rw [if_pos hw, getLast?_cons_eq, hgl]
        · rw [if_neg hw]; exact hgl
      rw [this]
    | none =>
      have hnil : writersFor bs j = [] := by
        cases h : writersFor bs j with
        | nil => rfl
        | cons x xs => rw [h] at hgl; rw [getLast?_cons_eq] at hgl;
                       cases hx : xs.getLast? <;> simp [hx] at hgl
      by_cases hw : nodeId w = j
      · have : (writersFor (w :: bs) j).getLast? = some w := by
          rw [hfil, if_pos hw, hnil]; rfl
        rw [this, lookupNode_ingestW, if_pos hw.symm]
      · have : (writersFor (w :: bs) j).getLast? = none := by
          rw [hfil, if_neg hw, hnil]; rfl
        rw [this, lookupNode_ingestW, if_neg (fun hh => hw hh.symm)]
        cases h : lookupNode g j with
        | some v => simp
        | none =>
          by_cases hdep : j ∈ w.dependencies
          · simp [hdep]
          · simp [hdep]

theorem mem_nodeIds (g : Graph) (j : String) :
    j ∈ nodeIds g ↔ (lookupNode g j).isSome := by
  unfold nodeIds lookupNode
  exact mem_mapFst_iff_lookupL g.nodes j

theorem writersFor_ne_nil (b : List Workflow) (j : String) :
    writersFor b j ≠ [] ↔ ∃ w ∈ b, nodeId w = j := by
  unfold writersFor
  induction b with
  | nil => simp
  | cons w bs ih =>
    by_cases h : nodeId w = j <;> simp [List.filter_cons, h, ih]

theorem mem_nodeIds_ingest (g : Graph) (b : List Workflow) (j : String) :
    j ∈ nodeIds (ingest g b) ↔
      j ∈ nodeIds g ∨ ∃ w ∈ b, nodeId w = j ∨ j ∈ w.dependencies := by
  rw [mem_nodeIds, lookupNode_ingest]
  cases hgl : (writersFor b j).getLast? with
  | some w' =>
    have hne : writersFor b j ≠ [] := by
      intro hh; rw [hh] at hgl; simp at hgl
    have ⟨w2, hw2, hid⟩ := (writersFor_ne_nil b j).mp hne
    simp only [Option.isSome_some, true_iff]
    exact Or.inr ⟨w2, hw2, Or.inl hid⟩
  | none =>
    have hnil : writersFor b j = [] := by
      cases h : writersFor b j with
      | nil => rfl
      | cons x xs =>
        rw [h, getLast?_cons_eq] at hgl
        cases hx : xs.getLast? <;> simp [hx] at hgl
    have hnow : ¬∃ w ∈ b, nodeId w = j := by
      rw [← writersFor_ne_nil]; simp [hnil]
    cases h : lookupNode g j with
    | some v =>
      have : j ∈ nodeIds g := by rw [mem_nodeIds, h]; rfl
      simp [this]
    | none =>
      have hng : j ∉ nodeIds g := by rw [mem_nodeIds, h]; simp
      by_cases hany : b.any (fun w => decide (j ∈ w.dependencies))
      · simp only [hany, if_true, Option.isSome_some, true_iff]
        rw [List.any_eq_true] at hany
        obtain ⟨w, hw, hdep⟩ := hany
        exact Or.inr ⟨w, hw, Or.inr (by simpa using hdep)⟩
      · simp only [Bool.not_eq_true] at hany
        simp only [hany, Bool.false_eq_true, if_false, Option.isSome_none,
          false_iff]
        rintro (hh | ⟨w, hw, hh | hh⟩)
        · exact hng hh
        · exact hnow ⟨w, hw, hh⟩
        · have : b.any (fun w => decide (j ∈ w.dependencies)) = true :=
            List.any_eq_true.mpr ⟨w, hw, by simpa using hh⟩
          rw [hany] at this; exact Bool.false_ne_true this

theorem mem_edges_addEdgeG (g : Graph) (d n : String) (e : String × String) :
    e ∈ (addEdgeG g d n).edges ↔ e ∈ g.edges ∨ e = (d, n) := by
  rw [edges_addEdgeG]
  by_cases h : (d, n) ∈ g.edges
  · rw [if_pos h]
    constructor
    · exact Or.inl
    · rintro (hh | rfl) <;> [exact hh; exact h]
  · rw [if_neg h]; simp

theorem mem_edges_foldAddEdge (ds : List String) (n : String) (g : Graph)
    (e : String × String) :
    e ∈ (ds.foldl (fun g2 d => addEdgeG g2 d n) g).edges ↔
      e ∈ g.edges ∨ ∃ d ∈ ds, e = (d, n) := by
  induction ds generalizing g with
  | nil => simp
  | cons d ds ih =>
    rw [List.foldl_cons, ih, mem_edges_addEdgeG]
    constructor
    · rintro ((hh | rfl) | ⟨d2, hd2, rfl⟩)
      · exact Or.inl hh
      · exact Or.inr ⟨d, by simp⟩
      · exact Or.inr ⟨d2, by simp [hd2]⟩
    · rintro (hh | ⟨d2, hd2, rfl⟩)
      · exact Or.inl (Or.inl hh)
      · rcases List.mem_cons.mp hd2 with rfl | hd3
        · exact Or.inl (Or.inr rfl)
        · exact Or.inr ⟨d2, hd3, rfl⟩

theorem mem_edges_ingestW (g : Graph) (w : Workflow) (e : String × String) :
    e ∈ (ingestW g w).edges ↔
      e ∈ g.edges ∨ (e.2 = nodeId w ∧ e.1 ∈ w.dependencies) := by
  unfold ingestW
  rw [mem_edges_foldAddEdge]
  rw [show (addNodeG g (nodeId w) (attrsOf w)).edges = g.edges from edges_addNodeG ..]
  constructor
  · rintro (hh | ⟨d, hd, rfl⟩)
    · exact Or.inl hh
    · exact Or.inr ⟨rfl, hd⟩
  · rintro (hh | ⟨h2, h1⟩)
    · exact Or.inl hh
    · exact Or.inr ⟨e.1, h1, by rw [← h2]⟩

theorem mem_edges_ingest (g : Graph) (b : List Workflow) (e : String × String) :
    e ∈ (ingest g b).edges ↔
      e ∈ g.edges ∨ ∃ w ∈ b, e.2 = nodeId w ∧ e.1 ∈ w.dependencies := by
  induction b generalizing g with
  | nil => simp [ingest]
  | cons w bs ih =>
    have hstep : ingest g (w :: bs) = ingest (ingestW g w) bs := rfl
    rw [hstep, ih, mem_edges_ingestW]
    constructor
    · rintro ((hh | hh) | ⟨w2, hw2, hh⟩)
      · exact Or.inl hh
      · exact Or.inr ⟨w, by simp, hh⟩
      · exact Or.inr ⟨w2, by simp [hw2], hh⟩
    · rintro (hh | ⟨w2, hw2, hh⟩)
      · exact Or.inl (Or.inl hh)
      · rcases List.mem_cons.mp hw2 with rfl | hw3
        · exact Or.inl (Or.inr hh)
        · exact Or.inr ⟨w2, hw3, hh⟩

theorem nodeIds_addNodeG (g : Graph) (k : String) (a : Attrs) :
    nodeIds (addNodeG g k a) =
      if (lookupNode g k).isSome then nodeIds g else nodeIds g ++ [k] := by
  by_cases h : (lookupNode g k).isSome
  · rw [if_pos h]
    unfold addNodeG
    rw [if_pos h]
    show (g.nodes.map _).map Prod.fst = _
    rw [List.map_map]
    apply List.map_congr_left
    intro p _
    by_cases hp : p.1 = k <;> simp [hp]
  · rw [if_neg h]
    unfold addNodeG
    rw [if_neg h]
    show (g.nodes ++ [(k, some a)]).map Prod.fst = _
    simp [nodeIds]

theorem nodeIds_ensureNodeG (g : Graph) (k : String) :
    nodeIds (ensureNodeG g k) =
      if (lookupNode g k).isSome then nodeIds g else nodeIds g ++ [k] := by
  by_cases h : (lookupNode g k).isSome
  · rw [if_pos h]; unfold ensureNodeG; rw [if_pos h]
  · rw [if_neg h]
    unfold ensureNodeG
    rw [if_neg h]
    show (g.nodes ++ [(k, none)]).map Prod.fst = _
    simp [nodeIds]

theorem nodup_nodeIds_ensureNodeG (g : Graph) (k : String)
    (h : (nodeIds g).Nodup) : (nodeIds (ensureNodeG g k)).Nodup := by
  rw [nodeIds_ensureNodeG]
  by_cases hk : (lookupNode g k).isSome
  · simpa [hk]
  · rw [if_neg hk]
    have hm : k ∉ nodeIds g := by rw [mem_nodeIds]; exact hk
    simp [List.nodup_append, h, hm]

theorem nodup_nodeIds_addNodeG (g : Graph) (k : String) (a : Attrs)
    (h : (nodeIds g).Nodup) : (nodeIds (addNodeG g k a)).Nodup := by
  rw [nodeIds_addNodeG]
  by_cases hk : (lookupNode g k).isSome
  · simpa [hk]
  · rw [if_neg hk]
    have hm : k ∉ nodeIds g := by rw [mem_nodeIds]; exact hk
    simp [List.nodup_append, h, hm]

theorem nodup_nodeIds_addEdgeG (g : Graph) (d n : String)
    (h : (nodeIds g).Nodup) : (nodeIds (addEdgeG g d n)).Nodup := by
  have : nodeIds (addEdgeG g d n) = nodeIds (ensureNodeG (ensureNodeG g d) n) := by
    unfold nodeIds
    rw [nodes_addEdgeG]
  rw [this]
  exact nodup_nodeIds_ensureNodeG _ _ (nodup_nodeIds_ensureNodeG _ _ h)

theorem nodup_nodeIds_foldAddEdge (ds : List String) (n : String) (g : Graph)
    (h : (nodeIds g).Nodup) :
    (nodeIds (ds.foldl (fun g2 d => addEdgeG g2 d n) g)).Nodup := by
  induction ds generalizing g with
  | nil => exact h
  | cons d ds ih => exact ih _ (nodup_nodeIds_addEdgeG _ _ _ h)

theorem nodup_nodeIds_ingestW (g : Graph) (w : Workflow)
    (h : (nodeIds g).Nodup) : (nodeIds (ingestW g w)).Nodup :=
  nodup_nodeIds_foldAddEdge _ _ _ (nodup_nodeIds_addNodeG _ _ _ h)

theorem nodup_nodeIds_ingest (g : Graph) (b : List Workflow)
    (h : (nodeIds g).Nodup) : (nodeIds (ingest g b)).Nodup := by
  induction b generalizing g with
  | nil => exact h
  | cons w bs ih => exact ih _ (nodup_nodeIds_ingestW _ _ h)

theorem nodup_edges_addEdgeG (g : Graph) (d n : String)
    (h : g.edges.Nodup) : (addEdgeG g d n).edges.Nodup := by
  rw [edges_addEdgeG]
  by_cases hm : (d, n) ∈ g.edges
  · simpa [hm]
  · rw [if_neg hm]
    simp [List.nodup_append, h, hm]

theorem nodup_edges_foldAddEdge (ds : List String) (n : String) (g : Graph)
    (h : g.edges.Nodup) :
    (ds.foldl (fun g2 d => addEdgeG g2 d n) g).edges.Nodup := by
  induction ds generalizing g with
  | nil => exact h
  | cons d ds ih => exact ih _ (nodup_edges_addEdgeG _ _ _ h)

theorem nodup_edges_ingestW (g : Graph) (w : Workflow)
    (h : g.edges.Nodup) : (ingestW g w).edges.Nodup := by
  unfold ingestW
  exact nodup_edges_foldAddEdge _ _ _ (by rw [edges_addNodeG]; exact h)

theorem nodup_edges_ingest (g : Graph) (b : List Workflow)
    (h : g.edges.Nodup) : (ingest g b).edges.Nodup := by
  induction b generalizing g with
  | nil => exact h
  | cons w bs ih => exact ih _ (nodup_edges_ingestW _ _ h)

/-- Claim C1: ingestion is an idempotent merge — re-ingesting the identical
batch leaves the node set and the edge set unchanged; node ids stay
duplicate-free and edges stay duplicate-free (so a node id reported any number
of times yields exactly one node, and a dependency stated twice yields exactly
one edge); and the node set after ingestion is exactly the prior nodes plus
the batch's node ids and mentioned dependency ids. -/
theorem ingest_idempotent_merge (g : Graph) (b : List Workflow)
    (hn : (nodeIds g).Nodup) (he : g.edges.Nodup) :
    (∀ x, x ∈ nodeIds (ingest (ingest g b) b) ↔ x ∈ nodeIds (ingest g b)) ∧
    (∀ e, e ∈ (ingest (ingest g b) b).edges ↔ e ∈ (ingest g b).edges) ∧
    (nodeIds (ingest g b)).Nodup ∧
    (ingest g b).edges.Nodup ∧
    (∀ x, x ∈ nodeIds (ingest g b) ↔
      x ∈ nodeIds g ∨ ∃ w ∈ b, nodeId w = x ∨ x ∈ w.dependencies) := by
  refine ⟨?_, ?_, nodup_nodeIds_ingest g b hn, nodup_edges_ingest g b he,
    fun x => mem_nodeIds_ingest g b x⟩
  · intro x
    rw [mem_nodeIds_ingest, mem_nodeIds_ingest, or_assoc, or_self]
  · intro e
    rw [mem_edges_ingest, mem_edges_ingest, or_assoc, or_self]

/-- A batch in which three employees each report the same "Invoice Approval"
activity. -/
def wInvoice : Workflow :=
  { id := none, name := "Invoice Approval", department := some "Finance",
    duration_hours := some 2, frequency := some "daily", dependencies := [] }

def batchThree : List Workflow := [wInvoice, wInvoice, wInvoice]

/-- Witness for C1 at a concrete batch: three reports of one activity name. -/
theorem ingest_idempotent_merge_witness :
    (∀ x, x ∈ nodeIds (ingest (ingest emptyGraph batchThree) batchThree) ↔
      x ∈ nodeIds (ingest emptyGraph batchThree)) ∧
    (∀ e, e ∈ (ingest (ingest emptyGraph batchThree) batchThree).edges ↔
      e ∈ (ingest emptyGraph batchThree).edges) ∧
    (nodeIds (ingest emptyGraph batchThree)).Nodup ∧
    (ingest emptyGraph batchThree).edges.Nodup ∧
    (∀ x, x ∈ nodeIds (ingest emptyGraph batchThree) ↔
      x ∈ nodeIds emptyGraph ∨
        ∃ w ∈ batchThree, nodeId w = x ∨ x ∈ w.dependencies) :=
  ingest_idempotent_merge emptyGraph batchThree (by decide) (by decide)

/-- An id never present before and never used as a batch node id, but listed
as some batch member's dependency, ends up as a stub node with an empty
attribute dict. -/
theorem lookup_stub (g : Graph) (b : List Workflow) (d : String)
    (hd : d ∉ nodeIds g) (hnw : ∀ w ∈ b, nodeId w ≠ d)
    (hdep : ∃ w ∈ b, d ∈ w.dependencies) :
    lookupNode (ingest g b) d = some none := by
  obtain ⟨w0, hw0, hdep0⟩ := hdep
  rw [lookupNode_ingest]
  have hwf : writersFor b d = [] := by
    apply List.filter_eq_nil_iff.mpr
    intro w hw
    simpa using hnw w hw
  rw [hwf]
  have hlg : lookupNode g d = none := by
    rw [mem_nodeIds] at hd
    exact Option.not_isSome_iff_eq_none.mp hd
  rw [hlg]
  have hany : b.any (fun w => decide (d ∈ w.dependencies)) = true :=
    List.any_eq_true.mpr ⟨w0, hw0, by simpa using hdep0⟩
  simp [hany]

/-- Claim C3 (amended): after any ingestion no edge endpoint dangles — both
endpoints of every edge are graph nodes — and an id that was only ever listed
as a dependency is present as a stub node whose stored attribute dict is
empty (`some none`): the stub carries no department/duration/frequency
attributes of its own. -/
theorem stub_nodes_no_dangling (g : Graph) (b : List Workflow)
    (hg : ∀ e ∈ g.edges, e.1 ∈ nodeIds g ∧ e.2 ∈ nodeIds g) :
    (∀ e ∈ (ingest g b).edges,
      e.1 ∈ nodeIds (ingest g b) ∧ e.2 ∈ nodeIds (ingest g b)) ∧
    (∀ d, d ∉ nodeIds g → (∀ w ∈ b, nodeId w ≠ d) →
      (∃ w ∈ b, d ∈ w.dependencies) →
      lookupNode (ingest g b) d = some none) := by
  constructor
  · intro e he
    rw [mem_edges_ingest] at he
    rcases he with he | ⟨w, hw, h2, h1⟩
    · obtain ⟨ha, hb⟩ := hg e he
      constructor <;> (rw [mem_nodeIds_ingest]; exact Or.inl (by assumption))
    · constructor
      · rw [mem_nodeIds_ingest]
        exact Or.inr ⟨w, hw, Or.inr h1⟩
      · rw [mem_nodeIds_ingest]
        exact Or.inr ⟨w, hw, Or.inl h2.symm⟩
  · exact fun d hd hnw hdep => lookup_stub g b d hd hnw hdep

/-- A workflow whose single dependency id "b" is never reported as an
activity, so ingestion creates "b" only through `add_edge`. -/
def wDangle : Workflow :=
  { id := none, name := "a", department := some "sales",
    duration_hours := none, frequency := none, dependencies := ["b"] }

/-- Counterexample to C3 as stated: the stub node "b" created for the
dependency carries no attributes at all — its stored attribute dict is empty
(`some none`), and its department reads as `None`, not "unknown" (and likewise
it stores no duration 1.0 or frequency "daily"). -/
theorem stub_default_attrs_counterexample :
    lookupNode (ingest emptyGraph [wDangle]) "b" = some none ∧
    getDeptG (ingest emptyGraph [wDangle]) "b" ≠ some "unknown" ∧
    getDeptG (ingest emptyGraph [wDangle]) "b" = none := by
  refine ⟨by decide, by decide, by decide⟩

/-- Witness for C3 at a concrete batch. -/
theorem stub_nodes_no_dangling_witness :
    (∀ e ∈ (ingest emptyGraph [wDangle]).edges,
      e.1 ∈ nodeIds (ingest emptyGraph [wDangle]) ∧
      e.2 ∈ nodeIds (ingest emptyGraph [wDangle])) ∧
    (∀ d, d ∉ nodeIds emptyGraph → (∀ w ∈ [wDangle], nodeId w ≠ d) →
      (∃ w ∈ [wDangle], d ∈ w.dependencies) →
      lookupNode (ingest emptyGraph [wDangle]) d = some none) :=
  stub_nodes_no_dangling emptyGraph [wDangle] (by decide)

/-- Claim C10: an edge from a stub dependency node (never reported as an
activity) to a node ingested with a department value present is always flagged
by the handoff pass, with severity 0.6 and estimated savings 5, because the
stub's department reads as `None` while the ingested endpoint's does not. -/
theorem stub_handoff_emitted (c : String → ℚ) (g : Graph) (b : List Workflow)
    (d n : String)
    (hd1 : d ∉ nodeIds g)
    (hd2 : ∀ w ∈ b, nodeId w ≠ d)
    (hw : ∃ w ∈ b, nodeId w = n ∧ d ∈ w.dependencies)
    (hdep : ∀ w ∈ b, nodeId w = n → (w.department).isSome) :
    ∃ bk ∈ identifyBottlenecks c (ingest g b),
      bk.node_id = d ++ "_to_" ++ n ∧ bk.btype = "handoff" ∧
      bk.severity = 6/10 ∧ bk.estimated_savings_hours = 5 := by
  obtain ⟨w0, hw0, hid0, hdep0⟩ := hw
  have hedge : (d, n) ∈ (ingest g b).edges := by
    rw [mem_edges_ingest]
    exact Or.inr ⟨w0, hw0, hid0.symm, hdep0⟩
  have hlookd : lookupNode (ingest g b) d = some none :=
    lookup_stub g b d hd1 hd2 ⟨w0, hw0, hdep0⟩
  have hdn : getDeptG (ingest g b) d = none := by
    unfold getDeptG
    rw [hlookd]
    rfl
  have hne : writersFor b n ≠ [] := (writersFor_ne_nil b n).mpr ⟨w0, hw0, hid0⟩
  have hsome : ((writersFor b n).getLast?).isSome := List.getLast?_isSome.mpr hne
  obtain ⟨wl, hgl⟩ := Option.isSome_iff_exists.mp hsome
  have hwl := List.mem_filter.mp (List.mem_of_mem_getLast? hgl)
  have hwlb : wl ∈ b := hwl.1
  have hwln : nodeId wl = n := by simpa using hwl.2
  have hlookn : lookupNode (ingest g b) n = some (some (attrsOf wl)) := by
    rw [lookupNode_ingest]
    rw [show (writersFor b n).getLast? = some wl from hgl]
  obtain ⟨s, hs⟩ := Option.isSome_iff_exists.mp (hdep wl hwlb hwln)
  have hdnn : getDeptG (ingest g b) n = some s := by
    unfold getDeptG
    rw [hlookn]
    simp [readDept, attrsOf, hs]
  have hdiff : getDeptG (ingest g b) d ≠ getDeptG (ingest g b) n := by
    rw [hdn, hdnn]; simp
  refine ⟨{ node_id := d ++ "_to_" ++ n
            btype := "handoff"
            severity := 6/10
            impact := "Cross-department handoff between " ++
              pyShowOptStr (getDeptG (ingest g b) d) ++ " and " ++
              pyShowOptStr (getDeptG (ingest g b) n)
            recommendation := "Standardize handoff process or co-locate teams"
            estimated_savings_hours := 5 }, ?_, rfl, rfl, rfl, rfl⟩
  unfold identifyBottlenecks
  refine List.mem_append.mpr (Or.inr ?_)
  unfold handoffPass
  apply List.mem_filterMap.mpr
  exact ⟨(d, n), hedge, by rw [if_pos hdiff]⟩

/-- A workflow depending on the never-reported id "d". -/
def wHand : Workflow :=
  { id := none, name := "n", department := some "sales",
    duration_hours := none, frequency := none, dependencies := ["d"] }

/-- Witness for C10 at a concrete batch: the stub edge is flagged as a
handoff. -/
theorem stub_handoff_emitted_witness :
    ∃ bk ∈ identifyBottlenecks (fun _ => 0) (ingest emptyGraph [wHand]),
      bk.node_id = "d" ++ "_to_" ++ "n" ∧ bk.btype = "handoff" ∧
      bk.severity = 6/10 ∧ bk.estimated_savings_hours = 5 :=
  stub_handoff_emitted (fun _ => 0) emptyGraph [wHand] "d" "n"
    (by decide) (by decide) ⟨wHand, by decide, by decide, by decide⟩ (by decide)

/-- Claim C2 (amended): an activity entry whose `name` field is present never
fails, and every other missing field silently receives its documented default
(department "unknown", owner "unassigned", duration 1.0, frequency "daily",
empty dependency/tool/pain-point lists); an activity without a name fails
(KeyError). -/
theorem activity_defaults (a : Activity) (nm : String) (h : a.name = some nm) :
    ∃ nd, createWorkflowNode a = some nd ∧ nd.name = nm ∧
      nd.id = "node_" ++ pyLower (pyReplaceSpace nm) ∧
      (a.department = none → nd.department = "unknown") ∧
      (a.owner = none → nd.owner = "unassigned") ∧
      (a.duration = none → nd.duration_hours = 1) ∧
      (a.frequency = none → nd.frequency = "daily") ∧
      (a.dependencies = none → nd.dependencies = []) ∧
      (a.tools = none → nd.tools_used = []) ∧
      (a.pain_points = none → nd.pain_points = []) := by
  refine ⟨{ id := "node_" ++ pyLower (pyReplaceSpace nm)
            name := nm
            department := a.department.getD "unknown"
            owner := a.owner.getD "unassigned"
            duration_hours := a.duration.getD 1
            dependencies := a.dependencies.getD []
            tools_used := a.tools.getD []
            frequency := a.frequency.getD "daily"
            pain_points := a.pain_points.getD []
            automation_potential := automationPotential a },
    by unfold createWorkflowNode; rw [h], rfl, rfl, ?_, ?_, ?_, ?_, ?_, ?_, ?_⟩
  all_goals (intro hx; simp [hx])

/-- An activity record that is malformed only in that its `name` key is
absent. -/
def actNoName : Activity :=
  { name := none, department := some "sales", owner := none, duration := some 2,
    dependencies := some [], tools := none, frequency := some "daily",
    pain_points := none, repetitive := true, digital := true, rule_based := false,
    requires_judgment := false, creative := false }

/-- Counterexample to C2 as stated: an activity entry that omits the `name`
field makes `_create_workflow_node` raise `KeyError` (modelled as `none`), so
processing is not error-free for all inputs. -/
theorem missing_name_counterexample :
    createWorkflowNode actNoName = none ∧ collectWorkflows [actNoName] = none := by
  exact ⟨rfl, rfl⟩

/-- An activity record carrying only a name. -/
def actOnlyName : Activity :=
  { name := some "Send Invoice", department := none, owner := none,
    duration := none, dependencies := none, tools := none, frequency := none,
    pain_points := none, repetitive := false, digital := false, rule_based := false,
    requires_judgment := false, creative := false }

/-- Witness for C2 at a concrete activity with every optional field absent. -/
theorem activity_defaults_witness :
    actOnlyName.name = some "Send Invoice" ∧
    (∃ nd, createWorkflowNode actOnlyName = some nd ∧ nd.name = "Send Invoice" ∧
      nd.id = "node_" ++ pyLower (pyReplaceSpace "Send Invoice") ∧
      (actOnlyName.department = none → nd.department = "unknown") ∧
      (actOnlyName.owner = none → nd.owner = "unassigned") ∧
      (actOnlyName.duration = none → nd.duration_hours = 1) ∧
      (actOnlyName.frequency = none → nd.frequency = "daily") ∧
      (actOnlyName.dependencies = none → nd.dependencies = []) ∧
      (actOnlyName.tools = none → nd.tools_used = []) ∧
      (actOnlyName.pain_points = none → nd.pain_points = [])) :=
  ⟨rfl, activity_defaults actOnlyName "Send Invoice" rfl⟩

theorem deptScore_symm (o1 o2 : Option String) :
    deptScore o1 o2 = deptScore o2 o1 := by
  by_cases h : o1 = o2
  · rw [deptScore, deptScore, if_pos h, if_pos h.symm]
  · rw [deptScore, deptScore, if_neg h, if_neg (fun hh => h hh.symm)]

theorem durScore_symm (q1 q2 : ℚ) : durScore q1 q2 = durScore q2 q1 := by
  by_cases e1 : q1 = 0 <;> by_cases e2 : q2 = 0 <;>
    simp [durScore, e1, e2, abs_sub_comm q1 q2, max_comm q1 q2]

theorem nameScore_symm (s1 s2 : String) : nameScore s1 s2 = nameScore s2 s1 := by
  by_cases e1 : pyLower s1 = ""
  · by_cases e2 : pyLower s2 = "" <;> simp [nameScore, e1, e2]
  · by_cases e2 : pyLower s2 = ""
    · simp [nameScore, e1, e2]
    · have hcond1 : pyLower s1 ≠ "" ∧ pyLower s2 ≠ "" := ⟨e1, e2⟩
      have hcond2 : pyLower s2 ≠ "" ∧ pyLower s1 ≠ "" := ⟨e2, e1⟩
      rw [nameScore, nameScore, if_pos hcond1, if_pos hcond2,
        Finset.inter_comm, max_comm ((pyWords (pyLower s1)).length)]

/-- Claim C9: `_calculate_similarity` is symmetric in its two node-attribute
arguments. -/
theorem similarity_symm (d1 d2 : Option Attrs) :
    similarity d1 d2 = similarity d2 d1 := by
  unfold similarity
  rw [nameScore_symm, deptScore_symm, durScore_symm]

theorem btype_of_mem_capacityPass (c : String → ℚ) (g : Graph) (bk : Bottleneck)
    (h : bk ∈ capacityPass c g) : bk.btype = "capacity" := by
  obtain ⟨p, hp, hf⟩ := List.mem_filterMap.mp h
  by_cases hc : c p.1 > 3/10
  · rw [if_pos hc] at hf
    obtain rfl := Option.some.inj hf
    rfl
  · rw [if_neg hc] at hf
    exact absurd hf (by simp)

theorem btype_of_mem_dependencyPass (g : Graph) (bk : Bottleneck)
    (h : bk ∈ dependencyPass g) : bk.btype = "dependency" := by
  obtain ⟨p, hp, hf⟩ := List.mem_filterMap.mp h
  by_cases hc : inDegree g p.1 > 5
  · rw [if_pos hc] at hf
    obtain rfl := Option.some.inj hf
    rfl
  · rw [if_neg hc] at hf
    exact absurd hf (by simp)

theorem btype_of_mem_approvalPass (g : Graph) (bk : Bottleneck)
    (h : bk ∈ approvalPass g) : bk.btype = "approval" := by
  obtain ⟨p, hp, hf⟩ := List.mem_filterMap.mp h
  by_cases hc : strHas "approval".toList (pyLower (readName p.2)).toList = true
  · rw [if_pos hc] at hf
    obtain rfl := Option.some.inj hf
    rfl
  · rw [if_neg hc] at hf
    exact absurd hf (by simp)

theorem btype_of_mem_handoffPass (g : Graph) (bk : Bottleneck)
    (h : bk ∈ handoffPass g) : bk.btype = "handoff" := by
  obtain ⟨e, he, hf⟩ := List.mem_filterMap.mp h
  by_cases hc : getDeptG g e.1 ≠ getDeptG g e.2
  · rw [if_pos hc] at hf
    obtain rfl := Option.some.inj hf
    rfl
  · rw [if_neg hc] at hf
    exact absurd hf (by simp)

/-- Claim C4: the capacity entries of the full bottleneck list are exactly the
capacity pass; a node yields a capacity bottleneck iff its betweenness
centrality strictly exceeds 0.3; and every capacity bottleneck carries
severity `min(centrality × 2, 1)` and savings `centrality × 40`. -/
theorem capacity_threshold (c : String → ℚ) (g : Graph) :
    ((identifyBottlenecks c g).filter fun bk => decide (bk.btype = "capacity")) =
      capacityPass c g ∧
    (∀ p ∈ g.nodes, ((∃ bk ∈ capacityPass c g, bk.node_id = p.1) ↔ c p.1 > 3/10)) ∧
    (∀ bk ∈ capacityPass c g, bk.severity = min (c bk.node_id * 2) 1 ∧
      bk.estimated_savings_hours = c bk.node_id * 40) := by
  refine ⟨?_, ?_, ?_⟩
  · unfold identifyBottlenecks
    rw [List.filter_append, List.filter_append, List.filter_append]
    rw [List.filter_eq_self.mpr
      (fun bk hbk => by simp [btype_of_mem_capacityPass c g bk hbk])]
    rw [List.filter_eq_nil_iff.mpr
      (fun bk hbk => by simp [btype_of_mem_dependencyPass g bk hbk])]
    rw [List.filter_eq_nil_iff.mpr
      (fun bk hbk => by simp [btype_of_mem_approvalPass g bk hbk])]
    rw [List.filter_eq_nil_iff.mpr
      (fun bk hbk => by simp [btype_of_mem_handoffPass g bk hbk])]
    simp
  · intro p hp
    constructor
    · rintro ⟨bk, hbk, hnid⟩
      obtain ⟨q, hq, hf⟩ := List.mem_filterMap.mp hbk
      by_cases hc : c q.1 > 3/10
      · rw [if_pos hc] at hf
        obtain rfl := Option.some.inj hf
        have : q.1 = p.1 := hnid
        rw [← this]
        exact hc
      · rw [if_neg hc] at hf
        exact absurd hf (by simp)
    · intro hc
      refine ⟨{ node_id := p.1
                btype := "capacity"
                severity := min (c p.1 * 2) 1
                impact := "This step is a critical path for " ++
                  toString (pyInt (c p.1 * 100)) ++ "% of workflows"
                recommendation := "Consider parallelizing or adding resources"
                estimated_savings_hours := c p.1 * 40 }, ?_, rfl⟩
      apply List.mem_filterMap.mpr
      exact ⟨p, hp, by rw [if_pos hc]⟩
  · intro bk hbk
    obtain ⟨q, hq, hf⟩ := List.mem_filterMap.mp hbk
    by_cases hc : c q.1 > 3/10
    · rw [if_pos hc] at hf
      obtain rfl := Option.some.inj hf
      exact ⟨rfl, rfl⟩
    · rw [if_neg hc] at hf
      exact absurd hf (by simp)

/-- A single-node graph used to exercise the centrality boundary. -/
def wX : Workflow :=
  { id := none, name := "x", department := some "ops",
    duration_hours := some 1, frequency := some "daily", dependencies := [] }

def gX : Graph := ingest emptyGraph [wX]

/-- Witness for C4: on a concrete node, centrality 0.31 is flagged with
severity 0.62 and savings 12.4, while centrality exactly 0.3 is not flagged. -/
theorem capacity_threshold_witness :
    ("x", some (attrsOf wX)) ∈ gX.nodes ∧
    (∃ bk ∈ capacityPass (fun _ => (31 : ℚ)/100) gX, bk.node_id = "x") ∧
    ¬(∃ bk ∈ capacityPass (fun _ => (3 : ℚ)/10) gX, bk.node_id = "x") ∧
    (∀ bk ∈ capacityPass (fun _ => (31 : ℚ)/100) gX,
      bk.severity = 62/100 ∧ bk.estimated_savings_hours = 62/5) := by
  have hmem : ("x", some (attrsOf wX)) ∈ gX.nodes := by decide
  refine ⟨hmem, ?_, ?_, ?_⟩
  · exact ((capacity_threshold (fun _ => (31 : ℚ)/100) gX).2.1 _ hmem).mpr
      (by norm_num)
  · intro hcon
    have := ((capacity_threshold (fun _ => (3 : ℚ)/10) gX).2.1 _ hmem).mp hcon
    norm_num at this
  · intro bk hbk
    obtain ⟨h1, h2⟩ :=
      (capacity_threshold (fun _ => (31 : ℚ)/100) gX).2.2 bk hbk
    constructor
    · rw [h1]; norm_num [min_def]
    · rw [h2]; norm_num

theorem quickWins_eq_quickWinsSpec (g : Graph) : quickWins g = quickWinsSpec g := by
  unfold quickWins quickWinsSpec
  have h1 : (g.nodes.filterMap fun p =>
      if readAP p.2 > 4/5 ∧ inDegree g p.1 < 2 then
        some (({ action := "Automate " ++ nameOrId p
                 effort := "Low"
                 impact := "High"
                 timeline := "1-2 weeks"
                 savings_hours_per_week := getDur1 p.2 * 5 } : QuickWin))
      else none) =
      (g.nodes.filter fun p =>
        decide (readAP p.2 > 4/5 ∧ inDegree g p.1 < 2)).map fun p =>
          ({ action := "Automate " ++ nameOrId p
             effort := "Low"
             impact := "High"
             timeline := "1-2 weeks"
             savings_hours_per_week := getDur1 p.2 * 5 } : QuickWin) :=
    filterMap_ite _ _ _
  rw [h1, List.map_take]

theorem readAP_zero_addNodeG (g : Graph) (k : String) (a : Attrs)
    (ha : a.automation_potential = none)
    (h : ∀ p ∈ g.nodes, readAP p.2 = 0) :
    ∀ p ∈ (addNodeG g k a).nodes, readAP p.2 = 0 := by
  intro p hp
  unfold addNodeG at hp
  by_cases hk : (lookupNode g k).isSome
  · rw [if_pos hk] at hp
    obtain ⟨q, hq, hqe⟩ := List.mem_map.mp hp
    by_cases hqk : q.1 = k
    · rw [if_pos hqk] at hqe
      rw [← hqe]
      simp [readAP, ha]
    · rw [if_neg hqk] at hqe
      rw [← hqe]
      exact h q hq
  · rw [if_neg hk] at hp
    rcases List.mem_append.mp hp with hp2 | hp2
    · exact h p hp2
    · rw [List.mem_singleton.mp hp2]
      simp [readAP, ha]

theorem readAP_zero_ensureNodeG (g : Graph) (k : String)
    (h : ∀ p ∈ g.nodes, readAP p.2 = 0) :
    ∀ p ∈ (ensureNodeG g k).nodes, readAP p.2 = 0 := by
  intro p hp
  unfold ensureNodeG at hp
  by_cases hk : (lookupNode g k).isSome
  · rw [if_pos hk] at hp
    exact h p hp
  · rw [if_neg hk] at hp
    rcases List.mem_append.mp hp with hp2 | hp2
    · exact h p hp2
    · rw [List.mem_singleton.mp hp2]
      rfl

theorem readAP_zero_addEdgeG (g : Graph) (d n : String)
    (h : ∀ p ∈ g.nodes, readAP p.2 = 0) :
    ∀ p ∈ (addEdgeG g d n).nodes, readAP p.2 = 0 := by
  intro p hp
  rw [nodes_addEdgeG] at hp
  exact readAP_zero_ensureNodeG _ _ (readAP_zero_ensureNodeG _ _ h) p hp

theorem readAP_zero_ingestW (g : Graph) (w : Workflow)
    (h : ∀ p ∈ g.nodes, readAP p.2 = 0) :
    ∀ p ∈ (ingestW g w).nodes, readAP p.2 = 0 := by
  unfold ingestW
  have h0 : ∀ p ∈ (addNodeG g (nodeId w) (attrsOf w)).nodes, readAP p.2 = 0 :=
    readAP_zero_addNodeG g _ _ rfl h
  generalize hg : addNodeG g (nodeId w) (attrsOf w) = g1 at h0
  clear hg
  induction w.dependencies generalizing g1 with
  | nil => exact h0
  | cons d ds ih =>
    rw [List.foldl_cons]
    exact ih _ (readAP_zero_addEdgeG _ _ _ h0)

theorem readAP_zero_ingest (g : Graph) (b : List Workflow)
    (h : ∀ p ∈ g.nodes, readAP p.2 = 0) :
    ∀ p ∈ (ingest g b).nodes, readAP p.2 = 0 := by
  induction b generalizing g with
  | nil => exact h
  | cons w bs ih => exact ih _ (readAP_zero_ingestW _ _ h)

/-- Claim C5: on any graph — in particular after any ingestion — the
quick-wins list is exactly the nodes passing the strict `automation_potential
> 0.8` and `in-degree < 2` filter, capped at 5, each with savings `duration ×
5`; moreover ingestion stores no `automation_potential` attribute, so when the
pre-existing nodes also lack it the post-ingestion quick-wins list is empty. -/
theorem quick_wins_filter (g0 : Graph) (b : List Workflow) :
    quickWins (ingest g0 b) = quickWinsSpec (ingest g0 b) ∧
    (∀ qw ∈ quickWins (ingest g0 b), ∃ p ∈ (ingest g0 b).nodes,
      readAP p.2 > 4/5 ∧ inDegree (ingest g0 b) p.1 < 2 ∧
      qw.savings_hours_per_week = getDur1 p.2 * 5) ∧
    ((∀ p ∈ g0.nodes, readAP p.2 = 0) → quickWins (ingest g0 b) = []) := by
  refine ⟨quickWins_eq_quickWinsSpec _, ?_, ?_⟩
  · intro qw hqw
    unfold quickWins at hqw
    have hqw2 := List.take_subset 5 _ hqw
    obtain ⟨p, hp, hf⟩ := List.mem_filterMap.mp hqw2
    by_cases hc : readAP p.2 > 4/5 ∧ inDegree (ingest g0 b) p.1 < 2
    · rw [if_pos hc] at hf
      obtain rfl := Option.some.inj hf
      exact ⟨p, hp, hc.1, hc.2, rfl⟩
    · rw [if_neg hc] at hf
      exact absurd hf (by simp)
  · intro hap
    have hall := readAP_zero_ingest g0 b hap
    rw [quickWins_eq_quickWinsSpec]
    unfold quickWinsSpec
    have hfil : ((ingest g0 b).nodes.filter fun p =>
        decide (readAP p.2 > 4/5 ∧ inDegree (ingest g0 b) p.1 < 2)) = [] := by
      apply List.filter_eq_nil_iff.mpr
      intro p hp
      intro hcon
      rw [decide_eq_true_eq] at hcon
      rw [hall p hp] at hcon
      exact absurd hcon.1 (by norm_num)
    rw [hfil]
    rfl

/-- Witness for C5 at a concrete batch (the single-activity batch `[wX]`). -/
theorem quick_wins_filter_witness :
    (∀ p ∈ emptyGraph.nodes, readAP p.2 = 0) ∧
    quickWins (ingest emptyGraph [wX]) = quickWinsSpec (ingest emptyGraph [wX]) ∧
    quickWins (ingest emptyGraph [wX]) = [] :=
  ⟨by decide, (quick_wins_filter emptyGraph [wX]).1,
    (quick_wins_filter emptyGraph [wX]).2.2 (by decide)⟩

/-- Claim C6 (amended): bottleneck detection, redundancy detection and
insight synthesis leave the graph unchanged, repeated runs return equal
results, and the result is a function of the graph snapshot alone; however
bottleneck and redundancy detection store their results in mapper state
(`self.bottlenecks` / `self.redundancies`), which insight synthesis reads. -/
theorem detectors_pure (c : String → ℚ) (cyc : List (List String))
    (m m' : Mapper) :
    ((runIdentifyBottlenecks c m).2.graph = m.graph) ∧
    ((runDetectRedundancies cyc m).2.graph = m.graph) ∧
    ((runIdentifyBottlenecks c ((runIdentifyBottlenecks c m).2)).1 =
      (runIdentifyBottlenecks c m).1) ∧
    ((runDetectRedundancies cyc ((runDetectRedundancies cyc m).2)).1 =
      (runDetectRedundancies cyc m).1) ∧
    (m.graph = m'.graph →
      (runIdentifyBottlenecks c m).1 = (runIdentifyBottlenecks c m').1 ∧
      (runDetectRedundancies cyc m).1 = (runDetectRedundancies cyc m').1) := by
  refine ⟨rfl, rfl, rfl, rfl, fun h => ⟨?_, ?_⟩⟩ <;>
    simp [runIdentifyBottlenecks, runDetectRedundancies, h]

/-- A single "Invoice Approval" activity; its name triggers the approval
pass. -/
def wApproval : Workflow :=
  { id := none, name := "Invoice Approval", department := some "Finance",
    duration_hours := some 2, frequency := some "daily", dependencies := [] }

/-- A mapper state right after ingesting `[wApproval]`, before any detector
has run. -/
def mApproval : Mapper :=
  { graph := ingest emptyGraph [wApproval], bottlenecks := [], redundancies := [] }

/-- The attribute record stored for the "Invoice Approval" node. -/
def aApproval : Attrs :=
  { name := "Invoice Approval", department := some "Finance", duration := 2,
    frequency := "daily", automation_potential := none }

def gApproval : Graph :=
  { nodes := [("Invoice Approval", some aApproval)], edges := [] }

/-- Counterexample to C6 as stated: running bottleneck detection modifies
state observable by insight synthesis — the insights report differs before
and after, with no re-ingestion in between. (`fun _ => 0` is the true
betweenness centrality of this one-node graph.) -/
theorem detector_state_counterexample :
    (generateInsights ((runIdentifyBottlenecks (fun _ => 0) mApproval).2)).bottlenecks_found = 1 ∧
    (generateInsights mApproval).bottlenecks_found = 0 ∧
    generateInsights ((runIdentifyBottlenecks (fun _ => 0) mApproval).2) ≠
      generateInsights mApproval := by
  have hg : mApproval.graph = gApproval := by decide
  have hcap : ¬((0 : ℚ) > 3/10) := by norm_num
  have haps : approvalPass gApproval =
      [{ node_id := "Invoice Approval"
         btype := "approval"
         severity := 7/10
         impact := "Manual approval causing delays"
         recommendation := "Implement automated approval rules for standard cases"
         estimated_savings_hours := 10 }] := by
    unfold approvalPass
    simp only [gApproval, List.filterMap_cons, List.filterMap_nil]
    rw [if_pos (show strHas "approval".toList
      (pyLower (readName (some aApproval))).toList = true from by decide)]
  have hbs : identifyBottlenecks (fun _ => 0) gApproval =
      [{ node_id := "Invoice Approval"
         btype := "approval"
         severity := 7/10
         impact := "Manual approval causing delays"
         recommendation := "Implement automated approval rules for standard cases"
         estimated_savings_hours := 10 }] := by
    unfold identifyBottlenecks
    rw [haps]
    simp [capacityPass, dependencyPass, handoffPass, gApproval, inDegree, hcap]
  have h1 : (generateInsights
      ((runIdentifyBottlenecks (fun _ => 0) mApproval).2)).bottlenecks_found = 1 := by
    show (identifyBottlenecks (fun _ => 0) mApproval.graph).length = 1
    rw [hg, hbs]
    rfl
  have h0 : (generateInsights mApproval).bottlenecks_found = 0 := rfl
  refine ⟨h1, h0, fun h => ?_⟩
  have h2 := congrArg Insights.bottlenecks_found h
  rw [h1, h0] at h2
  exact one_ne_zero h2

/-- Witness for C6 at a concrete mapper state. -/
theorem detectors_pure_witness :
    mApproval.graph = mApproval.graph ∧
    (((runIdentifyBottlenecks (fun _ => 0) mApproval).2.graph = mApproval.graph) ∧
     ((runDetectRedundancies [] mApproval).2.graph = mApproval.graph) ∧
     ((runIdentifyBottlenecks (fun _ => 0)
        ((runIdentifyBottlenecks (fun _ => 0) mApproval).2)).1 =
       (runIdentifyBottlenecks (fun _ => 0) mApproval).1) ∧
     ((runDetectRedundancies []
        ((runDetectRedundancies [] mApproval).2)).1 =
       (runDetectRedundancies [] mApproval).1) ∧
     (mApproval.graph = mApproval.graph →
       (runIdentifyBottlenecks (fun _ => 0) mApproval).1 =
         (runIdentifyBottlenecks (fun _ => 0) mApproval).1 ∧
       (runDetectRedundancies [] mApproval).1 =
         (runDetectRedundancies [] mApproval).1)) :=
  ⟨rfl, detectors_pure (fun _ => 0) [] mApproval mApproval⟩

/-- Claim C7: an empty input batch yields the empty graph; every detector
returns an empty list on the empty graph (for redundancies, under any sound
cycle enumeration, which is necessarily empty); and the insights report on
the initial mapper state has all counts, savings aggregates, rollups and
quick wins at zero/empty. -/
theorem empty_batch_all_zero :
    ingest emptyGraph [] = emptyGraph ∧
    (∀ c, identifyBottlenecks c emptyGraph = []) ∧
    (∀ cyc, cyclesValid emptyGraph cyc → detectRedundancies cyc emptyGraph = []) ∧
    (generateInsights initMapper).bottlenecks_found = 0 ∧
    (generateInsights initMapper).redundancies_found = 0 ∧
    (generateInsights initMapper).potential_time_savings = 0 ∧
    (generateInsights initMapper).potential_cost_savings = 0 ∧
    (generateInsights initMapper).automation_opportunities = 0 ∧
    (generateInsights initMapper).rec_impacts = [0, 0, 0, 0] ∧
    (generateInsights initMapper).department_specific = [] ∧
    (generateInsights initMapper).quick_wins = [] := by
  refine ⟨rfl, fun c => rfl, ?_, rfl, rfl, rfl,
    by simp [generateInsights, initMapper],
    rfl, by simp [generateInsights, initMapper], rfl, rfl⟩
  intro cyc hv
  cases cyc with
  | nil => rfl
  | cons l ls =>
    obtain ⟨hne, hall⟩ := hv l (by simp)
    cases l with
    | nil => exact absurd rfl hne
    | cons x xs => exact absurd (hall x (by simp)) (by simp [nodeIds, emptyGraph])

/-- Witness for C7: the sound (empty) cycle enumeration instantiating the
hypothesis. -/
theorem empty_batch_all_zero_witness :
    cyclesValid emptyGraph [] ∧ detectRedundancies [] emptyGraph = [] :=
  ⟨by simp [cyclesValid], empty_batch_all_zero.2.2.1 [] (by simp [cyclesValid])⟩

/-- Attributes of a node named "Send Invoice" with a given department and
duration. -/
def attrsSI (dept : Option String) (q : ℚ) : Attrs :=
  { name := "Send Invoice", department := dept, duration := q,
    frequency := "daily", automation_potential := none }

/-- Attributes of a node named "Send Invoices" with a given department and
duration. -/
def attrsSIs (dept : Option String) (q : ℚ) : Attrs :=
  { name := "Send Invoices", department := dept, duration := q,
    frequency := "daily", automation_potential := none }

/-- Claim C8: nodes named "Send Invoice" and "Send Invoices" with the same
department and equal nonzero durations score similarity ≥ 0.8 (in fact
exactly 1), and whenever such a pair occurs in the pairwise scan the
redundancy detector reports it as a `duplicate_process`. -/
theorem send_invoice_duplicate (dept : Option String) (q : ℚ) (hq : q ≠ 0)
    (g : Graph) (n1 n2 : String) (cyc : List (List String))
    (hpair : ((n1, some (attrsSI dept q)), (n2, some (attrsSIs dept q))) ∈
      pairsAfter g.nodes) :
    similarity (some (attrsSI dept q)) (some (attrsSIs dept q)) ≥ 8/10 ∧
    ∃ r ∈ detectRedundancies cyc g, r.rtype = "duplicate_process" ∧
      r.rnodes = [n1, n2] ∧
      r.similarity_score =
        some (similarity (some (attrsSI dept q)) (some (attrsSIs dept q))) := by
  have hw1 : pyWords (pyLower "Send Invoice") = ["send", "invoice"] := by decide
  have hw2 : pyWords (pyLower "Send Invoices") = ["send", "invoices"] := by decide
  have hns : nameScore "Send Invoice" "Send Invoices" = 1/2 := by
    unfold nameScore
    rw [if_pos (show pyLower "Send Invoice" ≠ "" ∧ pyLower "Send Invoices" ≠ ""
      from by decide)]
    rw [hw1, hw2]
    have hcard : (["send", "invoice"].toFinset ∩
        ["send", "invoices"].toFinset).card = 1 := by decide
    rw [if_pos (show (["send", "invoice"].toFinset ∩
      ["send", "invoices"].toFinset).card > 0 from by rw [hcard]; norm_num)]
    rw [hcard]
    norm_num
  have hsim : similarity (some (attrsSI dept q)) (some (attrsSIs dept q)) = 1 := by
    unfold similarity
    rw [show readName (some (attrsSI dept q)) = "Send Invoice" from rfl,
      show readName (some (attrsSIs dept q)) = "Send Invoices" from rfl,
      show readDept (some (attrsSI dept q)) = dept from rfl,
      show readDept (some (attrsSIs dept q)) = dept from rfl,
      show getDur0 (some (attrsSI dept q)) = q from rfl,
      show getDur0 (some (attrsSIs dept q)) = q from rfl,
      hns, deptScore, if_pos rfl, durScore, if_pos ⟨hq, hq⟩]
    have hd : (1 : ℚ) - |q - q| / max q q = 1 := by
      simp [sub_self]
    rw [hd, one_mul, show (1 : ℚ)/2 + 1/5 + 3/10 = 1 from by norm_num, min_self]
  constructor
  · rw [hsim]; norm_num
  · have hgt : similarity ((n1, some (attrsSI dept q)),
        (n2, some (attrsSIs dept q))).1.2
        ((n1, some (attrsSI dept q)), (n2, some (attrsSIs dept q))).2.2 > 8/10 := by
      show similarity (some (attrsSI dept q)) (some (attrsSIs dept q)) > 8/10
      rw [hsim]; norm_num
    refine ⟨{ rtype := "duplicate_process"
              rnodes := [n1, n2]
              similarity_score :=
                some (similarity (some (attrsSI dept q)) (some (attrsSIs dept q)))
              departments := some [readDept (some (attrsSI dept q)),
                readDept (some (attrsSIs dept q))]
              impact := none
              estimated_waste_hours := getDur1 (some (attrsSI dept q)) * 4
              recommendation := "Consolidate these similar processes" },
      ?_, rfl, rfl, rfl⟩
    unfold detectRedundancies
    apply List.mem_append.mpr
    left
    unfold duplicateEntries
    apply List.mem_filterMap.mpr
    exact ⟨_, hpair, by rw [if_pos hgt]⟩

/-- A two-node graph holding the "Send Invoice" / "Send Invoices" pair. -/
def gSI : Graph :=
  { nodes := [("si", some (attrsSI (some "finance") 2)),
              ("sis", some (attrsSIs (some "finance") 2))],
    edges := [] }

/-- Witness for C8 on a concrete two-node graph. -/
theorem send_invoice_duplicate_witness :
    similarity (some (attrsSI (some "finance") 2))
      (some (attrsSIs (some "finance") 2)) ≥ 8/10 ∧
    ∃ r ∈ detectRedundancies [] gSI, r.rtype = "duplicate_process" ∧
      r.rnodes = ["si", "sis"] ∧
      r.similarity_score = some (similarity (some (attrsSI (some "finance") 2))
        (some (attrsSIs (some "finance") 2))) :=
  send_invoice_duplicate (some "finance") 2 (by norm_num) gSI "si" "sis" []
    (by decide)

end Otom
